import Mathlib

/-!
Verification development for the TCG card-processing pipeline orchestrator
(`apps/api/ai_agent.py.backup`).  The Python orchestration engine is shallowly
embedded: result dictionaries become structures with optional fields, `bytes`
become `List Nat`, floats become `Rat`, and the external MCP tool service
becomes an oracle consulted once per tool call.  Base64 transport encoding is
performed by `call_mcp_tool` on the way out and decoded at every use site, so
an image is identified with its decoded byte content throughout.  Narration
(`log_thought`) is modelled by the event labels relevant to the stated
properties: the step kind, the pair index named in the message, and whether
the event was produced by a detached progress-timer task.
-/

namespace TCG

/-- Raw image bytes (`bytes` in the Python source). -/
abbrev Img := List Nat

/-- Python truthiness of an optional string (`None` and `""` are falsy). -/
def truthyStr : Option String → Bool
  | none => false
  | some s => !s.isEmpty

/-- Rendering of an optional string inside an f-string (`None` prints as
`"None"`), as in `f"Rotation failed: {rotation_result.get('error')}"`. -/
def pyStrOfOpt : Option String → String
  | none => "None"
  | some s => s

/-- Identification record returned by the `identify_card` tool
(`result["identification"]`); only the keys the engine reads are modelled. -/
structure Identification where
  bestName : Option String := none
  confidence : Option Rat := none
  needsManualReview : Option Bool := none
  deriving Repr, DecidableEq

/-- The per-record `grades` dictionary of a grade result: numeric sub-scores
and a condition label, each optional (`grades.get(field)`). -/
structure Grades where
  corners : Option Rat := none
  edges : Option Rat := none
  surface : Option Rat := none
  centering : Option Rat := none
  final : Option Rat := none
  condition : Option String := none
  deriving Repr, DecidableEq

/-- One element of a grade result's `records` list, with the grading-analysis
image URLs the combiner inspects (`_full_url_card`, `_exact_url_card`). -/
structure GradeRecord where
  grades : Grades := {}
  fullUrlCard : Option String := none
  exactUrlCard : Option String := none
  deriving Repr, DecidableEq

/-- The payload stored under `results["grade"]` by a successful `grade_card`
call: a `records` list plus an opaque `statistics` entry. -/
structure GradeResult where
  records : List GradeRecord := []
  statistics : Option String := none
  deriving Repr, DecidableEq

/-- Field-by-field combination used by `_combine_grades` lines 584-593:
average when both sides carry the sub-score (`is not None` checks, so a zero
score still counts as present), the single value when one side carries it,
absent when neither does. -/
def avgField : Option Rat → Option Rat → Option Rat
  | some f, some b => some ((f + b) / 2)
  | some f, none => some f
  | none, some b => some b
  | none, none => none

/-- Python `a or b` on optional strings (line 597): the left operand wins
exactly when it is truthy. -/
def pyOrStr (a b : Option String) : Option String :=
  if truthyStr a then a else b

/-- `_combine_grades` (lines 565-612).  With a non-empty `records` list on
both sides, the first records are merged: numeric sub-scores via `avgField`,
the condition label via Python `or`, the combined record is a copy of the
front record with its `grades` replaced, grading-image URLs fall back to the
back record when the front copy lacks a truthy one, and `statistics` is taken
from the front result.  When either `records` list is empty the existing
side's whole grade result is returned unmodified. -/
def combine_grades (front_grade back_grade : GradeResult) : GradeResult :=
  match front_grade.records, back_grade.records with
  | [], [] => front_grade
  | [], _ :: _ => back_grade
  | _ :: _, [] => front_grade
  | fr :: _, br :: _ =>
    let fg := fr.grades
    let bg := br.grades
    let comb : Grades :=
      { corners := avgField fg.corners bg.corners
        edges := avgField fg.edges bg.edges
        surface := avgField fg.surface bg.surface
        centering := avgField fg.centering bg.centering
        final := avgField fg.final bg.final
        condition := pyOrStr fg.condition bg.condition }
    let base : GradeRecord := { fr with grades := comb }
    let base :=
      if !truthyStr base.fullUrlCard && truthyStr br.fullUrlCard then
        { base with fullUrlCard := br.fullUrlCard }
      else base
    let base :=
      if !truthyStr base.exactUrlCard && truthyStr br.exactUrlCard then
        { base with exactUrlCard := br.exactUrlCard }
      else base
    { records := [base], statistics := front_grade.statistics }

/-- Grade selection of `_process_single_pair` lines 545-557.  A stored grade
payload is a dictionary with `records`/`statistics` keys and hence truthy, so
the Python `if front_grade and back_grade` chain is presence analysis on the
two optional grades. -/
def selectPairGrade (front back : Option GradeResult) : Option GradeResult :=
  match front, back with
  | some f, some b => some (combine_grades f b)
  | some f, none => some f
  | none, some b => some b
  | none, none => none

/-- The `results` sub-dictionary a single-side run accumulates
(`card_result["results"]`), one optional slot per storing step. -/
structure SideOutputs where
  orientation_corrected : Option Img := none
  background_removed : Option Img := none
  identification : Option Identification := none
  grade : Option GradeResult := none
  enhanced : Option Img := none
  listing_description : Option String := none
  deriving Repr, DecidableEq

/-- Per-side accumulator (`card_result` of `_process_single_card_image`). -/
structure SideResult where
  steps_completed : List String := []
  results : SideOutputs := {}
  errors : List String := []
  deriving Repr, DecidableEq

/-- Pair-level result assembled by `_process_single_pair` (lines 479-489 and
the merge code that follows). -/
structure PairResult where
  pair_index : Nat := 0
  steps_completed : List String := []
  front : SideOutputs := {}
  back : SideOutputs := {}
  identification : Option Identification := none
  grade : Option GradeResult := none
  listing_description : Option String := none
  errors : List String := []
  deriving Repr, DecidableEq

/-- One-decimal percentage rendering of `successful/total` as produced by the
f-string `f"{(successful/total_cards)*100:.1f}%"`; the decimal rounding of the
binary float is modelled as rounding over exact rationals. -/
def pctString (successful total : Nat) : String :=
  let tenths : Int := Int.floor (((successful * 1000 : Nat) : Rat) / (total : Rat) + 1 / 2)
  toString (tenths / 10) ++ "." ++ toString (tenths % 10) ++ "%"

/-- Batch summary (`_generate_summary` lines 1090-1112).  The `steps_completed`
tally dictionary is modelled as its lookup function (absent keys count 0). -/
structure Summary where
  total_cards : Nat
  successful : Nat
  failed : Nat
  success_rate : String
  steps_completed : String → Nat
  ready_for_ebay : Nat
  needs_manual_review : Nat

/-- `_generate_summary`: `successful` counts results with empty error lists,
the step tally increments once per occurrence in each result's
`steps_completed`, and the rate string falls back to `"0%"` on an empty
batch. -/
def generate_summary (results : List PairResult) : Summary :=
  let total := results.length
  let successful := (results.filter (fun r => r.errors.isEmpty)).length
  let failed := total - successful
  { total_cards := total
    successful := successful
    failed := failed
    success_rate := if total > 0 then pctString successful total else "0%"
    steps_completed := fun name => (results.map (fun r => r.steps_completed.count name)).sum
    ready_for_ebay := successful
    needs_manual_review := failed }

/-- The `image_update` metadata payload attached for live previews. -/
structure ImageUpdate where
  pair_index : Nat := 0
  card_type : String := ""
  image_type : String := ""
  image_base64 : Img := []
  step : String := ""
  deriving Repr, DecidableEq

/-- The optional `metadata` dictionary passed to `log_thought`; presence of a
key is an `isSome` field (the code distinguishes keys only through
`"image_update" in metadata`, `get("pair_index") is not None` and the
truthiness of `get("card_name")`). -/
structure ThoughtMeta where
  image_update : Option ImageUpdate := none
  pair_index : Option Int := none
  card_name : Option String := none
  deriving Repr, DecidableEq

/-- One appended thought entry (lines 54-72); the wall-clock timestamp is not
modelled. -/
structure ThoughtEntry where
  step : String
  thought : String
  image_update : Option ImageUpdate := none
  pair_index : Option Int := none
  card_name : Option String := none
  deriving Repr, DecidableEq

/-- Entry construction of `log_thought` (lines 54-72): an `image_update` key
claims the metadata branch outright (the structured identification keys are
then ignored), otherwise a present `pair_index` or truthy `card_name` attaches
the identification hint. -/
def mkThoughtEntry (thought step : String) (metadata : Option ThoughtMeta) : ThoughtEntry :=
  let base : ThoughtEntry := { step := step, thought := thought }
  match metadata with
  | none => base
  | some m =>
    if m.image_update.isSome then
      { base with image_update := m.image_update }
    else if m.pair_index.isSome || truthyStr m.card_name then
      { base with pair_index := m.pair_index, card_name := m.card_name }
    else
      base

/-- The global `_realtime_thoughts` dictionary, keyed by session id; modelled
as an association list in insertion order. -/
abbrev ThoughtStore := List (String × List ThoughtEntry)

/-- Dictionary lookup on the store. -/
def storeLookup (sid : String) (st : ThoughtStore) : Option (List ThoughtEntry) :=
  (st.find? (fun p => p.fst == sid)).map Prod.snd

/-- `_realtime_thoughts[sid].append(entry)` preceded by
`if sid not in _realtime_thoughts: _realtime_thoughts[sid] = []` — a missing
key is created at the end of the dictionary's insertion order. -/
def storeAppend (sid : String) (entry : ThoughtEntry) : ThoughtStore → ThoughtStore
  | [] => [(sid, [entry])]
  | p :: rest =>
    if p.fst == sid then (p.fst, p.snd ++ [entry]) :: rest
    else p :: storeAppend sid entry rest

/-- The effect of one `log_thought` call on the global store (lines 81-93):
nothing happens when the agent has no session id or an empty one
(`hasattr(self, 'session_id') and self.session_id`); otherwise the entry is
appended under the session id, creating the key when absent. -/
def log_thought_store (session_id : Option String) (entry : ThoughtEntry)
    (st : ThoughtStore) : ThoughtStore :=
  match session_id with
  | none => st
  | some sid => if sid.isEmpty then st else storeAppend sid entry st

/-- Tool-call payload returned inside the MCP response envelope
(`result.get("result", {})`); `success` and `needs_rotation` are read by
truthiness, the remaining keys by direct indexing or `get`. -/
structure ToolResult where
  success : Bool := false
  error : Option String := none
  needs_rotation : Bool := false
  rotation_angle : Option Int := none
  rotated_image : Option Img := none
  processed_image : Option Img := none
  identification : Option Identification := none
  grade : Option GradeResult := none
  enhanced_image : Option Img := none
  description : Option String := none
  deriving Repr, DecidableEq

/-- One MCP HTTP exchange as `call_mcp_tool` experiences it: either the
transport raised (httpx error, the 120 s client timeout, a JSON decode
failure) or a response envelope arrived with optional `error` and `result`
fields. -/
inductive McpExchange
  | raisedTransport (msg : String)
  | responded (error : Option String) (result : Option ToolResult)
  deriving Repr, DecidableEq

/-- `call_mcp_tool` (lines 262-305).  A truthy envelope `error` raises
`Exception("MCP Error: ...")`; the `except Exception` clause logs every
exception and re-raises it (`raise`), so the boundary yields either the inner
result payload or a raised exception — it never converts failures into an
error-carrying return value. -/
def call_mcp_tool (x : McpExchange) : Except String ToolResult :=
  match x with
  | .raisedTransport msg => .error msg
  | .responded err res =>
    if truthyStr err then .error ("MCP Error: " ++ pyStrOfOpt err)
    else .ok (res.getD {})

/-- A step descriptor of the processing plan. -/
structure Step where
  name : String
  enabled : Bool
  reason : String
  deriving Repr, DecidableEq

/-- A processing plan (`{"steps": [...], "reasoning": ...}`). -/
structure Plan where
  steps : List Step
  reasoning : String := ""
  deriving Repr, DecidableEq

/-- The caller's capability-selection dictionary `user_options`; a `none`
field models an absent key, read through `.get(key, default)`. -/
structure UserOptions where
  remove_background : Option Bool := none
  identify : Option Bool := none
  grade : Option Bool := none
  enhance : Option Bool := none
  generate_description : Option Bool := none
  deriving Repr, DecidableEq

/-- `_default_processing_plan` (lines 433-445), with the source's literal step
names, defaults and rationale strings. -/
def default_processing_plan (u : UserOptions) : Plan :=
  { steps :=
      [ { name := "check_orientation", enabled := true,
          reason := "Check if card needs rotation to portrait" }
      , { name := "remove_background", enabled := u.remove_background.getD true,
          reason := "Clean up the card image" }
      , { name := "identify_card", enabled := u.identify.getD true,
          reason := "Find out what card it is" }
      , { name := "grade_card", enabled := u.grade.getD true,
          reason := "Check the card's condition" }
      , { name := "enhance_image", enabled := u.enhance.getD false,
          reason := "Make the image look better" }
      , { name := "generate_description", enabled := u.generate_description.getD true,
          reason := "Create an eBay listing" } ]
    reasoning := "I'll process your card step by step to get the best results" }

/-- Outcome of the external planning request in `_create_processing_plan`:
the chat call raised, the reply failed `json.loads`, or the reply parsed as a
JSON plan object (the parsed value is used without validation). -/
inductive PlannerOutcome
  | raisedPlanning (msg : String)
  | unparseable (text : String)
  | parsed (plan : Plan)
  deriving Repr, DecidableEq

/-- `_create_processing_plan` (lines 379-431): a parseable planner reply is
returned as-is; a parse failure or a raised planning call falls back to the
default plan. -/
def create_processing_plan (outcome : PlannerOutcome) (u : UserOptions) : Plan :=
  match outcome with
  | .parsed p => p
  | .unparseable _ => default_processing_plan u
  | .raisedPlanning _ => default_processing_plan u

/-- Enabled flag of the named step in a plan, when the step is present. -/
def stepEnabled (p : Plan) (n : String) : Option Bool :=
  (p.steps.find? (fun s => s.name == n)).map (fun s => s.enabled)

/-- One tool invocation as instrumented for the proofs: the capability name
and the image bytes passed under `image_bytes` (none for
`generate_description`, which sends no image). -/
structure ToolCall where
  method : String
  image : Option Img := none
  deriving Repr, DecidableEq

/-- A narrated event, abstracted to the labels the stated properties talk
about: its `step` kind, the pair index its message names (the messages all
open with `Card pair {pair_index+1}` when they concern a pair), and whether
it was emitted by a detached progress-timer task. -/
structure Ev where
  kind : String
  pairIdx : Option Nat := none
  supp : Bool := false
  deriving Repr, DecidableEq

/-- What the sequential pipeline does to the narration channel, in program
order: emit one event, or `asyncio.create_task` a detached timer that will
later emit the given events. -/
inductive Act
  | emit (e : Ev)
  | spawn (es : List Ev)
  deriving Repr, DecidableEq

/-- Instrumentation threaded through a run: the ordered tool-call trace and
the ordered narration actions of the sequential pipeline. -/
structure RunLog where
  trace : List ToolCall := []
  acts : List Act := []
  deriving Repr, DecidableEq

/-- What the environment does for one tool call: the HTTP exchange completes
with the given outcome, or an enclosing `asyncio.wait_for` deadline fires
first.  (At a call site with no `wait_for` wrapper the latter is read as a
plain raised exception.) -/
inductive CallEnv
  | http (x : McpExchange)
  | waitTimeout
  deriving Repr, DecidableEq

/-- The environment, consulted once per tool call in call order. -/
abbrev Oracle := Nat → CallEnv

/-- A tool call as its caller experiences it after `call_mcp_tool`: a
returned payload, a raised exception, or an `asyncio.TimeoutError` from the
enclosing `wait_for`. -/
inductive CallRes
  | ok (r : ToolResult)
  | raised (msg : String)
  | timedOut
  deriving Repr, DecidableEq

/-- Route one environment outcome through `call_mcp_tool`. -/
def runCall (wrapped : Bool) : CallEnv → CallRes
  | .http x =>
    match call_mcp_tool x with
    | .ok r => .ok r
    | .error m => .raised m
  | .waitTimeout => if wrapped then .timedOut else .raised "TimeoutError"

/-- The two capabilities for which `call_mcp_tool` narrates an extra patience
message and spawns a detached progress task (lines 269-284). -/
def longRunning (method : String) : Bool :=
  method == "remove_background" || method == "identify_card"

/-- The two untagged progress thoughts of `_add_background_progress_thoughts`
or `_add_identification_progress_thoughts` (their messages name no pair). -/
def progressTaskEvents : List Ev :=
  [{ kind := "step", pairIdx := none, supp := true },
   { kind := "step", pairIdx := none, supp := true }]

/-- Narration actions of one `call_mcp_tool` invocation (lines 262-305): the
`Calling MCP tool` thought, the patience thought plus detached progress task
for the long-running capabilities, and the `error`-kind thought logged before
the exception is re-raised.  A `wait_for` timeout cancels the call as a
`BaseException`, which the `except Exception` clause does not intercept, so
no error thought is logged in that case. -/
def callActs (method : String) (res : CallRes) : List Act :=
  [Act.emit { kind := "step", pairIdx := none }]
    ++ (if longRunning method then
          [Act.emit { kind := "step", pairIdx := none }, Act.spawn progressTaskEvents]
        else [])
    ++ (match res with
        | .raised _ => [Act.emit { kind := "error", pairIdx := none }]
        | _ => [])

/-- Append one emitted event to the run log. -/
def emitL (log : RunLog) (e : Ev) : RunLog :=
  { log with acts := log.acts ++ [Act.emit e] }

/-- Append one spawned detached task to the run log. -/
def spawnL (log : RunLog) (es : List Ev) : RunLog :=
  { log with acts := log.acts ++ [Act.spawn es] }

/-- Perform one tool call: consult the oracle at the current call index,
record the call in the trace, and append `call_mcp_tool`'s narration. -/
def doCall (oracle : Oracle) (wrapped : Bool) (method : String) (img : Option Img)
    (log : RunLog) : CallRes × RunLog :=
  let res := runCall wrapped (oracle log.trace.length)
  (res, { trace := log.trace ++ [{ method := method, image := img }],
          acts := log.acts ++ callActs method res })

/-- Mutable state of one `_process_single_card_image` run: the per-side
accumulator, the working image buffer, the shared run log, and the list of
enabled steps whose dispatch was reached (instrumentation for the
no-early-abort property). -/
structure PState where
  result : SideResult := {}
  current : Img := []
  log : RunLog := {}
  attempted : List String := []
  deriving Repr, DecidableEq

/-- Emit one pipeline event. -/
def PState.emit (st : PState) (e : Ev) : PState :=
  { st with log := emitL st.log e }

/-- Spawn one detached timer task. -/
def PState.spawnTask (st : PState) (es : List Ev) : PState :=
  { st with log := spawnL st.log es }

/-- Append an error string to the side accumulator. -/
def PState.err (st : PState) (m : String) : PState :=
  { st with result := { st.result with errors := st.result.errors ++ [m] } }

/-- Append a completed-step name to the side accumulator. -/
def PState.done (st : PState) (s : String) : PState :=
  { st with result := { st.result with steps_completed := st.result.steps_completed ++ [s] } }

/-- Update the side accumulator's outputs. -/
def PState.setOut (st : PState) (f : SideOutputs → SideOutputs) : PState :=
  { st with result := { st.result with results := f st.result.results } }

/-- An ordinary pipeline event naming this pair, of the given kind. -/
def evTagged (kind : String) (pairIdx : Nat) : Ev :=
  { kind := kind, pairIdx := some pairIdx }

/-- The two tagged progress thoughts of the local
`_add_grading_progress_thoughts` timer (lines 804-810); their messages open
with `Card pair {pair_index+1}`. -/
def gradingProgressEvents (pairIdx : Nat) : List Ev :=
  [{ kind := "step", pairIdx := some pairIdx, supp := true },
   { kind := "step", pairIdx := some pairIdx, supp := true }]

/-- The `check_orientation` branch of `_process_single_card_image`
(lines 657-714): on a reported rotation need the rotate tool runs under a
30 s `wait_for`; success replaces the buffer and narrates twice, rotation
failure or timeout is recorded without aborting, and an escaping exception
(including a `KeyError` on the missing payload key, whose `str` renders as
the quoted key) is caught by the step-level handler. -/
def stepCheckOrientation (oracle : Oracle) (pairIdx : Nat) (st : PState) : PState :=
  let (res, log) := doCall oracle false "check_orientation" (some st.current) st.log
  let st := { st with log := log }
  match res with
  | .raised m => (st.err ("Step check_orientation failed: " ++ m)).emit (evTagged "error" pairIdx)
  | .timedOut => (st.err ("Step check_orientation failed: TimeoutError")).emit (evTagged "error" pairIdx)
  | .ok r =>
    if r.success then
      if r.needs_rotation then
        let st := st.emit (evTagged "step" pairIdx)  -- line 661
        let (res2, log2) := doCall oracle true "rotate_image" (some st.current) st.log
        let st := { st with log := log2 }
        match res2 with
        | .timedOut =>
          -- lines 702-705
          (st.emit (evTagged "error" pairIdx)).err "Rotation timed out - skipping orientation correction"
        | .raised m =>
          (st.err ("Step check_orientation failed: " ++ m)).emit (evTagged "error" pairIdx)
        | .ok r2 =>
          if r2.success then
            match r2.rotated_image with
            | some img =>
              let st := { st with current := img }
              let st := st.setOut (fun o => { o with orientation_corrected := some img })
              let st := st.done "orientation_corrected"
              -- lines 681-695: success thought, then the preview thought
              (st.emit (evTagged "success" pairIdx)).emit (evTagged "success" pairIdx)
            | none =>
              (st.err "Step check_orientation failed: 'rotated_image'").emit (evTagged "error" pairIdx)
          else
            (st.err ("Rotation failed: " ++ pyStrOfOpt r2.error)).emit (evTagged "error" pairIdx)
      else
        (st.done "orientation_verified").emit (evTagged "success" pairIdx)
    else
      (st.err ("Orientation check failed: " ++ pyStrOfOpt r.error)).emit (evTagged "error" pairIdx)

/-- The `remove_background` branch (lines 716-747): requires a non-empty
working buffer, replaces it on success and narrates the preview. -/
def stepRemoveBackground (oracle : Oracle) (pairIdx : Nat) (st : PState) : PState :=
  if st.current.isEmpty then
    (st.err "No image data for background removal").emit (evTagged "error" pairIdx)
  else
    let st := st.emit (evTagged "step" pairIdx)  -- line 722
    let (res, log) := doCall oracle false "remove_background" (some st.current) st.log
    let st := { st with log := log }
    match res with
    | .raised m => (st.err ("Step remove_background failed: " ++ m)).emit (evTagged "error" pairIdx)
    | .timedOut => (st.err ("Step remove_background failed: TimeoutError")).emit (evTagged "error" pairIdx)
    | .ok r =>
      if r.success then
        match r.processed_image with
        | some img =>
          let st := { st with current := img }
          let st := st.setOut (fun o => { o with background_removed := some img })
          let st := st.done "background_removed"
          -- lines 730-744: success thought, then the preview thought (kind "step")
          (st.emit (evTagged "success" pairIdx)).emit (evTagged "step" pairIdx)
        | none =>
          (st.err "Step remove_background failed: 'processed_image'").emit (evTagged "error" pairIdx)
      else
        (st.err ("Background removal failed: " ++ pyStrOfOpt r.error)).emit (evTagged "error" pairIdx)

/-- The `identify_card` branch for a side that identifies (lines 749-788):
runs on the current working buffer and stores the identification record. -/
def stepIdentifyCard (oracle : Oracle) (pairIdx : Nat) (st : PState) : PState :=
  if st.current.isEmpty then
    (st.err "No image data for card identification").emit (evTagged "error" pairIdx)
  else
    let st := st.emit (evTagged "step" pairIdx)  -- line 761
    let (res, log) := doCall oracle false "identify_card" (some st.current) st.log
    let st := { st with log := log }
    match res with
    | .raised m => (st.err ("Step identify_card failed: " ++ m)).emit (evTagged "error" pairIdx)
    | .timedOut => (st.err ("Step identify_card failed: TimeoutError")).emit (evTagged "error" pairIdx)
    | .ok r =>
      if r.success then
        match r.identification with
        | some idrec =>
          let st := st.setOut (fun o => { o with identification := some idrec })
          let st := st.done "identified"
          let st := st.emit (evTagged "success" pairIdx)  -- line 773, with the hint metadata
          if idrec.confidence.getD 0 > 0 then st.emit (evTagged "step" pairIdx) else st
        | none =>
          (st.err "Step identify_card failed: 'identification'").emit (evTagged "error" pairIdx)
      else
        (st.err ("Identification failed: " ++ pyStrOfOpt r.error)).emit (evTagged "error" pairIdx)

/-- The `grade_card` branch (lines 790-848): grading always reads `original`
— the side's input image — never the working buffer; the back side spawns
the detached grading-progress timer; the call runs under a 180 s `wait_for`
whose expiry is recorded as the three-minute timeout error, and the branch's
own `except Exception` turns any other escape into a `Grading failed:`
message. -/
def stepGradeCard (oracle : Oracle) (pairIdx : Nat) (cardType : String)
    (original : Img) (st : PState) : PState :=
  if original.isEmpty then
    (st.err "No image data for card grading").emit (evTagged "error" pairIdx)
  else
    let st := (st.emit (evTagged "step" pairIdx)).emit (evTagged "step" pairIdx)  -- lines 800-801
    let st := if cardType == "back" then st.spawnTask (gradingProgressEvents pairIdx) else st
    let (res, log) := doCall oracle true "grade_card" (some original) st.log
    let st := { st with log := log }
    match res with
    | .timedOut =>
      -- lines 838-841
      (st.err "Grading failed: Grading timed out after 3 minutes").emit (evTagged "error" pairIdx)
    | .raised m =>
      (st.err ("Grading failed: " ++ m)).emit (evTagged "error" pairIdx)
    | .ok r =>
      if r.success then
        match r.grade with
        | some g =>
          let st := st.setOut (fun o => { o with grade := some g })
          let st := st.done "graded"
          let st := (st.emit (evTagged "success" pairIdx)).emit (evTagged "step" pairIdx)
          -- lines 830-832: the analysis-image thought
          match g.records with
          | rec0 :: _ => if truthyStr rec0.fullUrlCard then st.emit (evTagged "success" pairIdx) else st
          | [] => st
        | none =>
          (st.err "Grading failed: 'grade'").emit (evTagged "error" pairIdx)
      else
        (st.err ("Grading failed: " ++ r.error.getD "Unknown error")).emit (evTagged "error" pairIdx)

/-- The `enhance_image` branch (lines 850-866): skipped for the back side,
otherwise replaces the working buffer on success. -/
def stepEnhanceImage (oracle : Oracle) (pairIdx : Nat) (cardType : String) (st : PState) : PState :=
  if cardType == "back" then
    st.emit (evTagged "step" pairIdx)  -- line 853: skip thought
  else
    let (res, log) := doCall oracle false "enhance_image" (some st.current) st.log
    let st := { st with log := log }
    match res with
    | .raised m => (st.err ("Step enhance_image failed: " ++ m)).emit (evTagged "error" pairIdx)
    | .timedOut => (st.err ("Step enhance_image failed: TimeoutError")).emit (evTagged "error" pairIdx)
    | .ok r =>
      if r.success then
        match r.enhanced_image with
        | some img =>
          let st := { st with current := img }
          let st := st.setOut (fun o => { o with enhanced := some img })
          (st.done "enhanced").emit (evTagged "success" pairIdx)
        | none =>
          (st.err "Step enhance_image failed: 'enhanced_image'").emit (evTagged "error" pairIdx)
      else
        (st.err ("Enhancement failed: " ++ pyStrOfOpt r.error)).emit (evTagged "error" pairIdx)

/-- The `generate_description` branch (lines 868-894): only the front side
runs it, with defaults standing in for absent identification or grade data;
the returned text is stored on success. -/
def stepGenerateDescription (oracle : Oracle) (pairIdx : Nat) (cardType : String)
    (st : PState) : PState :=
  if cardType != "front" then
    st.emit (evTagged "step" pairIdx)  -- line 871: skip thought
  else
    -- lines 874-877: defaults when identification or grade are absent
    let st := st.emit (evTagged "step" pairIdx)  -- line 879
    let (res, log) := doCall oracle false "generate_description" none st.log
    let st := { st with log := log }
    match res with
    | .raised m => (st.err ("Step generate_description failed: " ++ m)).emit (evTagged "error" pairIdx)
    | .timedOut => (st.err ("Step generate_description failed: TimeoutError")).emit (evTagged "error" pairIdx)
    | .ok r =>
      if r.success then
        match r.description with
        | some d =>
          let st := st.setOut (fun o => { o with listing_description := some d })
          let st := st.done "description_generated"
          (st.emit (evTagged "success" pairIdx)).emit (evTagged "step" pairIdx)
        | none =>
          (st.err "Step generate_description failed: 'description'").emit (evTagged "error" pairIdx)
      else
        (st.err ("Description generation failed: " ++ pyStrOfOpt r.error)).emit (evTagged "error" pairIdx)

/-- Dispatch of one enabled plan step inside `_process_single_card_image`
(lines 628-899): the back-side skip of `identify_card` (line 637), the
per-step descriptive thought (lines 642-654), then the capability branch;
an unrecognized step name matches no branch. -/
def procImageStepBody (oracle : Oracle) (pairIdx : Nat) (cardType : String)
    (shouldIdentify : Bool) (original : Img) (st : PState) (step : Step) : PState :=
  let name := step.name
  if name == "identify_card" && !shouldIdentify then
    -- line 639: the skip thought, then `continue`
    st.emit (evTagged "step" pairIdx)
  else
    let st := st.emit (evTagged "step" pairIdx)
    if name == "check_orientation" then stepCheckOrientation oracle pairIdx st
    else if name == "remove_background" then stepRemoveBackground oracle pairIdx st
    else if name == "identify_card" then stepIdentifyCard oracle pairIdx st
    else if name == "grade_card" then stepGradeCard oracle pairIdx cardType original st
    else if name == "enhance_image" then stepEnhanceImage oracle pairIdx cardType st
    else if name == "generate_description" then stepGenerateDescription oracle pairIdx cardType st
    else st

/-- One loop iteration of `_process_single_card_image`: disabled steps are
skipped outright; an enabled step's name is recorded as attempted and its
dispatch runs.  The loop body contains no `return` or `break`, so control
always reaches the next plan step. -/
def procImageStep (oracle : Oracle) (pairIdx : Nat) (cardType : String)
    (shouldIdentify : Bool) (original : Img) (st : PState) (step : Step) : PState :=
  if step.enabled then
    let st1 := procImageStepBody oracle pairIdx cardType shouldIdentify original st step
    { st1 with attempted := st.attempted ++ [step.name] }
  else st

/-- `_process_single_card_image` (lines 614-901): a fresh accumulator and a
working buffer initialized to the side's input image, folded through the plan
in order.  The run log is threaded from the caller so that tool-call indices
and narration remain global to the batch. -/
def process_single_card_image (oracle : Oracle) (image_bytes : Img) (plan : Plan)
    (pairIdx : Nat) (cardType : String) (shouldIdentify : Bool) (log : RunLog) : PState :=
  plan.steps.foldl (procImageStep oracle pairIdx cardType shouldIdentify image_bytes)
    { result := {}, current := image_bytes, log := log, attempted := [] }

/-- One uploaded card pair: `pair.get("front", {}).get("image_bytes")` and the
same for the back; an absent key is `none`. -/
structure CardPair where
  front : Option Img := none
  back : Option Img := none
  deriving Repr, DecidableEq

/-- Python `if not image` on an optional bytes value: absent or empty. -/
def imgMissing : Option Img → Bool
  | none => true
  | some i => i.isEmpty

/-- `_process_single_pair` (lines 477-563).  Either missing image appends one
fatal error, narrates it, and returns before any side is processed; otherwise
the front side runs with identification, the back side without, the two side
results are merged with `front_`/`back_` prefixes, identification and listing
description are copied from the front side only, and the pair grade comes
from `selectPairGrade`. -/
def process_single_pair (oracle : Oracle) (pair : CardPair) (plan : Plan)
    (pairIdx : Nat) (log : RunLog) : PairResult × RunLog :=
  let base : PairResult := { pair_index := pairIdx }
  if imgMissing pair.front then
    ({ base with errors := ["No front image data provided"] },
      emitL log (evTagged "error" pairIdx))
  else if imgMissing pair.back then
    ({ base with errors := ["No back image data provided"] },
      emitL log (evTagged "error" pairIdx))
  else
    -- lines 509-510: two introductory thoughts for the front side
    let log := emitL (emitL log (evTagged "step" pairIdx)) (evTagged "step" pairIdx)
    let stF := process_single_card_image oracle (pair.front.getD []) plan pairIdx "front" true log
    -- lines 523-524: two introductory thoughts for the back side
    let log := emitL (emitL stF.log (evTagged "step" pairIdx)) (evTagged "step" pairIdx)
    let stB := process_single_card_image oracle (pair.back.getD []) plan pairIdx "back" false log
    let fr := stF.result
    let br := stB.result
    -- lines 545-557: the grade-selection narration
    let log :=
      match fr.results.grade, br.results.grade with
      | some _, some _ => emitL stB.log (evTagged "success" pairIdx)
      | some _, none => emitL stB.log (evTagged "step" pairIdx)
      | none, some _ => emitL stB.log (evTagged "step" pairIdx)
      | none, none => stB.log
    ({ base with
        steps_completed :=
          fr.steps_completed.map (fun s => "front_" ++ s)
            ++ br.steps_completed.map (fun s => "back_" ++ s)
        front := fr.results
        back := br.results
        identification := fr.results.identification
        grade := selectPairGrade fr.results.grade br.results.grade
        listing_description := fr.results.listing_description
        errors :=
          fr.errors.map (fun e => "front_" ++ e)
            ++ br.errors.map (fun e => "back_" ++ e) },
      log)

/-- The indexed loop of `_execute_processing_plan_pairs` (lines 462-475):
per pair a `processing` thought naming it, a second `processing` transition
thought from the second pair on, the pair run, and a `success` transition
thought after every pair but the last.  `n` is the total pair count. -/
def execPairsAux (oracle : Oracle) (plan : Plan) (n : Nat) :
    List (Nat × CardPair) → RunLog → List PairResult × RunLog
  | [], log => ([], log)
  | (i, p) :: rest, log =>
    let log := emitL log (evTagged "processing" i)
    let log := if i > 0 then emitL log (evTagged "processing" i) else log
    let (r, log) := process_single_pair oracle p plan i log
    let log := if i < n - 1 then emitL log (evTagged "success" i) else log
    let (rs, log) := execPairsAux oracle plan n rest log
    (r :: rs, log)

/-- `_execute_processing_plan_pairs`: all pairs in order, single sequential
pipeline. -/
def execute_processing_plan_pairs (oracle : Oracle) (pairs : List CardPair)
    (plan : Plan) : List PairResult × RunLog :=
  execPairsAux oracle plan pairs.length pairs.enum {}

/-- Mutable state of one `_process_single_card` run (the legacy single-image
path, lines 903-1088): its accumulator also carries the rotation-attempt
counter stored on the result dictionary. -/
structure CState where
  result : SideResult := {}
  rotation_attempts : Nat := 0
  current : Img := []
  trace : List ToolCall := []
  deriving Repr, DecidableEq

/-- Append an error string. -/
def CState.err (st : CState) (m : String) : CState :=
  { st with result := { st.result with errors := st.result.errors ++ [m] } }

/-- Append a completed-step name. -/
def CState.done (st : CState) (s : String) : CState :=
  { st with result := { st.result with steps_completed := st.result.steps_completed ++ [s] } }

/-- Update the outputs. -/
def CState.setOut (st : CState) (f : SideOutputs → SideOutputs) : CState :=
  { st with result := { st.result with results := f st.result.results } }

/-- Record one tool call of the legacy path and consult the oracle. -/
def cDoCall (oracle : Oracle) (wrapped : Bool) (method : String) (img : Option Img)
    (st : CState) : CallRes × CState :=
  let res := runCall wrapped (oracle st.trace.length)
  (res, { st with trace := st.trace ++ [{ method := method, image := img }] })

/-- Dispatch of one enabled step inside `_process_single_card`
(lines 921-1086).  Unlike the pair path it guards rotation with the
`rotation_attempts` counter (line 931), never skips identification or
enhancement, runs `grade_card` without a `wait_for` wrapper and — decisively —
passes the *current working buffer* to the grading tool (line 1037), and runs
description generation unconditionally. -/
def procCardStepBody (oracle : Oracle) (st : CState) (step : Step) : CState :=
  let name := step.name
  if name == "check_orientation" then
    if st.rotation_attempts ≥ 2 then
      st.err "Rotation loop detected - skipping orientation correction"
    else
      let (res, st) := cDoCall oracle false "check_orientation" (some st.current) st
      match res with
      | .raised m => st.err ("Step check_orientation failed: " ++ m)
      | .timedOut => st.err ("Step check_orientation failed: TimeoutError")
      | .ok r =>
        if r.success then
          if r.needs_rotation then
            let (res2, st) := cDoCall oracle true "rotate_image" (some st.current) st
            match res2 with
            | .timedOut =>
              { st.err "Rotation timed out - skipping orientation correction" with
                rotation_attempts := st.rotation_attempts + 1 }
            | .raised m => st.err ("Step check_orientation failed: " ++ m)
            | .ok r2 =>
              if r2.success then
                match r2.rotated_image with
                | some img =>
                  let st := { st with current := img }
                  let st := st.setOut (fun o => { o with orientation_corrected := some img })
                  let st := st.done "orientation_corrected"
                  { st with rotation_attempts := st.rotation_attempts + 1 }
                | none => st.err "Step check_orientation failed: 'rotated_image'"
              else st.err ("Rotation failed: " ++ pyStrOfOpt r2.error)
          else
            st.done "orientation_verified"
        else
          st.err ("Orientation check failed: " ++ pyStrOfOpt r.error)
  else if name == "remove_background" then
    if st.current.isEmpty then st.err "No image data for background removal"
    else
      let (res, st) := cDoCall oracle false "remove_background" (some st.current) st
      match res with
      | .raised m => st.err ("Step remove_background failed: " ++ m)
      | .timedOut => st.err ("Step remove_background failed: TimeoutError")
      | .ok r =>
        if r.success then
          match r.processed_image with
          | some img =>
            let st := { st with current := img }
            let st := st.setOut (fun o => { o with background_removed := some img })
            st.done "background_removed"
          | none => st.err "Step remove_background failed: 'processed_image'"
        else st.err ("Background removal failed: " ++ pyStrOfOpt r.error)
  else if name == "identify_card" then
    if st.current.isEmpty then st.err "No image data for card identification"
    else
      let (res, st) := cDoCall oracle false "identify_card" (some st.current) st
      match res with
      | .raised m => st.err ("Step identify_card failed: " ++ m)
      | .timedOut => st.err ("Step identify_card failed: TimeoutError")
      | .ok r =>
        if r.success then
          match r.identification with
          | some idrec =>
            let st := st.setOut (fun o => { o with identification := some idrec })
            st.done "identified"
          | none => st.err "Step identify_card failed: 'identification'"
        else st.err ("Identification failed: " ++ pyStrOfOpt r.error)
  else if name == "grade_card" then
    if st.current.isEmpty then st.err "No image data for card grading"
    else
      -- line 1037: the call receives `current_image`, the working buffer
      let (res, st) := cDoCall oracle false "grade_card" (some st.current) st
      match res with
      | .raised m => st.err ("Step grade_card failed: " ++ m)
      | .timedOut => st.err ("Step grade_card failed: TimeoutError")
      | .ok r =>
        if r.success then
          match r.grade with
          | some g =>
            let st := st.setOut (fun o => { o with grade := some g })
            st.done "graded"
          | none => st.err "Step grade_card failed: 'grade'"
        else st.err ("Grading failed: " ++ pyStrOfOpt r.error)
  else if name == "enhance_image" then
    let (res, st) := cDoCall oracle false "enhance_image" (some st.current) st
    match res with
    | .raised m => st.err ("Step enhance_image failed: " ++ m)
    | .timedOut => st.err ("Step enhance_image failed: TimeoutError")
    | .ok r =>
      if r.success then
        match r.enhanced_image with
        | some img =>
          let st := { st with current := img }
          let st := st.setOut (fun o => { o with enhanced := some img })
          st.done "enhanced"
        | none => st.err "Step enhance_image failed: 'enhanced_image'"
      else st.err ("Enhancement failed: " ++ pyStrOfOpt r.error)
  else if name == "generate_description" then
    let (res, st) := cDoCall oracle false "generate_description" none st
    match res with
    | .raised m => st.err ("Step generate_description failed: " ++ m)
    | .timedOut => st.err ("Step generate_description failed: TimeoutError")
    | .ok r =>
      if r.success then
        match r.description with
        | some d =>
          let st := st.setOut (fun o => { o with listing_description := some d })
          st.done "description_generated"
        | none => st.err "Step generate_description failed: 'description'"
      else st.err ("Description generation failed: " ++ pyStrOfOpt r.error)
  else
    st

/-- One loop iteration of `_process_single_card`: disabled steps skipped. -/
def procCardStep (oracle : Oracle) (st : CState) (step : Step) : CState :=
  if step.enabled then procCardStepBody oracle st step else st

/-- `_process_single_card` (lines 903-1088): validate the input image, then
fold the plan.  Narration is not instrumented on this path; only the
accumulator and the tool-call trace are. -/
def process_single_card (oracle : Oracle) (image_bytes : Option Img) (plan : Plan) : CState :=
  match image_bytes with
  | none => ({} : CState).err "No image data provided for card"
  | some img =>
    if img.isEmpty then ({} : CState).err "No image data provided for card"
    else plan.steps.foldl (procCardStep oracle) { current := img }

/-- Cooperative scheduler over the pipeline's narration actions.  The batch
runs as one main task; `asyncio.create_task` hands each progress timer to the
event loop as a detached task.  Timer delays are fixed but tool calls suspend
for unbounded network time, so any interleaving that keeps each task's own
order and runs a timer only after its spawn point is realizable; the batch
may also return before a timer fires, leaving its events unemitted.  A choice
list drives the interleaving: `0` steps the main task, `k+1` lets detached
task `k` (in spawn order) emit its next event, and exhausted choices end the
observed log. -/
def schedRun : List Nat → List Act → List (List Ev) → List Ev
  | [], _, _ => []
  | 0 :: cs, acts, tasks =>
    match acts with
    | [] => schedRun cs [] tasks
    | Act.emit e :: rest => e :: schedRun cs rest tasks
    | Act.spawn es :: rest => schedRun cs rest (tasks ++ [es])
  | (k + 1) :: cs, acts, tasks =>
    match tasks.get? k with
    | some (e :: es) => e :: schedRun cs acts (tasks.set k es)
    | some [] => schedRun cs acts tasks
    | none => schedRun cs acts tasks

/-- The main task's own (non-spawned) emissions that are not timer events. -/
def nsEmits : List Act → List Ev
  | [] => []
  | Act.emit e :: rest => if e.supp then nsEmits rest else e :: nsEmits rest
  | Act.spawn _ :: rest => nsEmits rest

/-- An event tagged with pair index 0. -/
def tag0 (e : Ev) : Bool := e.pairIdx == some 0

/-- A `processing`-kind event tagged with pair index 1. -/
def proc1 (e : Ev) : Bool := e.pairIdx == some 1 && e.kind == "processing"

/-- The cross-pair ordering statement for a two-pair log: no event tagged
with pair 0 occurs after a `processing` event tagged with pair 1. -/
def crossPairOk : List Ev → Bool
  | [] => true
  | e :: rest => (if proc1 e then rest.all (fun x => !tag0 x) else true) && crossPairOk rest

/-- An action whose spawned events (if any) are all timer events; every
`create_task` in the engine spawns only progress-timer thoughts. -/
def actOkSupp : Act → Bool
  | .emit _ => true
  | .spawn es => es.all (fun e => e.supp)

/-- A tool call satisfies the grading-input discipline when it either is not
a grading call or carries the side's original image. -/
def gradeUsesOriginal (original : Img) (c : ToolCall) : Bool :=
  c.method != "grade_card" || c.image == some original

/-- Lift an event predicate to a narration action: an emitted event must
satisfy it, and every event of a spawned timer task must satisfy it. -/
def actAll (p : Ev → Bool) : Act → Bool
  | .emit e => p e
  | .spawn es => es.all p

/-- An event carrying no pair tag or the tag of pair `i`. -/
def evTagOk (i : Nat) (e : Ev) : Bool :=
  e.pairIdx == none || e.pairIdx == some i

/-- An event carrying no pair tag or a tag below `i`. -/
def evTagLt (i : Nat) (e : Ev) : Bool :=
  match e.pairIdx with
  | none => true
  | some k => decide (k < i)

/-- Every narration action appended while pair `i` is processed satisfies
this: its events are tagged `i` or untagged, and any spawned events are
timer events. -/
def actOkAt (i : Nat) (a : Act) : Bool :=
  actAll (evTagOk i) a && actOkSupp a

/-- The events the main pipeline emits directly, in program order (spawned
timer events excluded). -/
def emitsOf : List Act → List Ev
  | [] => []
  | Act.emit e :: rest => e :: emitsOf rest
  | Act.spawn _ :: rest => emitsOf rest

/-- Ordering relation between narrated events: whenever both carry pair
tags, the earlier event's tag is no larger. -/
def tagLe (e1 e2 : Ev) : Prop :=
  ∀ a b, e1.pairIdx = some a → e2.pairIdx = some b → a ≤ b

/-- `B` extends `A` by appended narration actions that all satisfy `P`. -/
def ActsExt (P : Act → Bool) (A B : List Act) : Prop :=
  A <+: B ∧ (B.drop A.length).all P = true

/-- An event tagged with pair `n`. -/
def evTagIs (n : Nat) (e : Ev) : Bool := e.pairIdx == some n

/-- A processing-kind event tagged with pair `n`. -/
def evProcAt (n : Nat) (e : Ev) : Bool :=
  e.pairIdx == some n && e.kind == "processing"

/-- Cross-pair ordering at `n`: no event tagged with pair `n` occurs after a
processing-kind event tagged with pair `n + 1`. -/
def crossPairOkAt (n : Nat) : List Ev → Bool
  | [] => true
  | e :: rest =>
    (if evProcAt (n + 1) e then rest.all (fun x => !evTagIs n x) else true)
      && crossPairOkAt n rest

/-- The invariant carried across the batch loop after the pairs below `i`
have run: every event so far is untagged or tagged below `i`, spawned
actions hold timer events only, and the pipeline-emitted events appear in
nondecreasing pair order. -/
def logTagInv (i : Nat) (acts : List Act) : Prop :=
  acts.all (actAll (evTagLt i)) = true ∧ acts.all actOkSupp = true ∧
    List.Pairwise tagLe (emitsOf acts)

/-- A sample thought entry. -/
def entry0 : ThoughtEntry := { step := "step", thought := "hello" }

/-- Front grade of the grade-combination example (corners 8, edges 9). -/
def fgW : GradeResult := { records := [{ grades := { corners := some 8, edges := some 9 } }] }

/-- Back grade of the grade-combination example (corners 6, edges 7). -/
def bgW : GradeResult := { records := [{ grades := { corners := some 6, edges := some 7 } }] }

/-- Capability selection for the grading-timeout scenario: grading and
description generation on, everything optional else off. -/
def c1Plan : Plan :=
  default_processing_plan
    { remove_background := some false, identify := some false, grade := some true,
      enhance := some false, generate_description := some true }

/-- Environment for the grading-timeout scenario: orientation check succeeds
with no rotation, the grading call exceeds its `wait_for` ceiling, and the
description call succeeds. -/
def c1Oracle : Oracle := fun n =>
  if n = 0 then .http (.responded none (some { success := true, needs_rotation := false }))
  else if n = 1 then .waitTimeout
  else .http (.responded none (some { success := true, description := some "a fine card" }))

/-- The grading-timeout scenario run: front side of pair 0. -/
def c1Run : PState :=
  process_single_card_image c1Oracle [1, 2, 3] c1Plan 0 "front" true {}

/-- A plan exercising background removal followed by grading on the legacy
single-card path. -/
def c5Plan : Plan :=
  { steps := [{ name := "remove_background", enabled := true, reason := "Clean up the card image" },
              { name := "grade_card", enabled := true, reason := "Check the card's condition" }] }

/-- Environment for the legacy-path grading scenario: background removal
succeeds and replaces the buffer with different bytes, then grading
succeeds. -/
def c5Oracle : Oracle := fun n =>
  if n = 0 then .http (.responded none (some { success := true, processed_image := some [9, 9] }))
  else .http (.responded none (some { success := true, grade := some { records := [{}] } }))

/-- Capability selection for the two-pair ordering scenario: only grading
(plus the always-on orientation check) runs, keeping the trace small. -/
def c8Plan : Plan :=
  default_processing_plan
    { remove_background := some false, identify := some false, grade := some true,
      enhance := some false, generate_description := some false }

/-- Environment for the ordering scenario: every call succeeds; orientation
needs no rotation and grading returns a record without an analysis URL. -/
def c8Oracle : Oracle := fun _ =>
  .http (.responded none (some { success := true, needs_rotation := false,
                                 grade := some { records := [{}] } }))

/-- A two-pair batch with all four images present. -/
def c8Pairs : List CardPair :=
  [{ front := some [1], back := some [2] }, { front := some [3], back := some [4] }]

/-- The sequential pipeline's narration actions for the two-pair batch. -/
def c8Acts : List Act := (execute_processing_plan_pairs c8Oracle c8Pairs c8Plan).2.acts

/-- A schedule that lets the whole batch run before any detached grading
timer fires, then lets pair 0's timer emit: all main actions first, then two
steps of detached task 0 (spawned during pair 0's back-side grading). -/
def c8LateChoices : List Nat := List.replicate c8Acts.length 0 ++ [1, 1]

/-- A pair result completing one step with no errors. -/
def c7Res : PairResult := { steps_completed := ["front_graded"], errors := [] }

theorem pctString_self (t : Nat) (ht : t ≠ 0) : pctString t t = "100.0%" := by
  unfold pctString
  have h0 : (t : Rat) ≠ 0 := Nat.cast_ne_zero.mpr ht
  have h1 : ((t * 1000 : Nat) : Rat) / (t : Rat) = 1000 := by
    push_cast
    field_simp
  rw [h1]
  have h2 : Int.floor ((1000 : Rat) + 1 / 2) = 1000 := by
    rw [Int.floor_eq_iff]
    norm_num
  rw [h2]
  decide

theorem sum_count_eq_filter_length (name : String) :
    ∀ results : List PairResult, (∀ r ∈ results, r.steps_completed.Nodup) →
      (results.map (fun r => r.steps_completed.count name)).sum =
        (results.filter (fun r => decide (name ∈ r.steps_completed))).length := by
  intro results
  induction results with
  | nil => intro _; rfl
  | cons r rest ih =>
    intro h
    have hr := h r (List.mem_cons_self _ _)
    have hrest := ih fun x hx => h x (List.mem_cons_of_mem _ hx)
    by_cases hm : name ∈ r.steps_completed
    · have hc : r.steps_completed.count name = 1 := List.count_eq_one_of_mem hr hm
      simp [List.filter_cons, hm, hc, hrest]
      omega
    · have hc : r.steps_completed.count name = 0 := List.count_eq_zero.mpr hm
      simp [List.filter_cons, hm, hc, hrest]

/-- C7: the batch summary counts `successful` as the pairs with empty error
lists, `failed` as the complement, mirrors them in the ready and
needs-review counts, tallies per-step completions, and renders the success
rate as `"0%"` for an empty batch and `"100.0%"` when every pair is
error-free. -/
theorem c7_summary_correct (results : List PairResult) :
    (generate_summary results).total_cards = results.length ∧
    (generate_summary results).successful =
      (results.filter (fun r => r.errors.isEmpty)).length ∧
    (generate_summary results).failed =
      results.length - (results.filter (fun r => r.errors.isEmpty)).length ∧
    (generate_summary results).ready_for_ebay = (generate_summary results).successful ∧
    (generate_summary results).needs_manual_review = (generate_summary results).failed ∧
    (results.length = 0 → (generate_summary results).success_rate = "0%") ∧
    ((results.length ≠ 0 ∧ ∀ r ∈ results, r.errors = []) →
      (generate_summary results).success_rate = "100.0%") ∧
    ((∀ r ∈ results, r.steps_completed.Nodup) → ∀ name,
      (generate_summary results).steps_completed name =
        (results.filter (fun r => decide (name ∈ r.steps_completed))).length) := by
  refine ⟨rfl, rfl, rfl, rfl, rfl, ?_, ?_, ?_⟩
  · intro h
    simp [generate_summary, h]
  · rintro ⟨hne, hall⟩
    have hfull : results.filter (fun r => r.errors.isEmpty) = results :=
      List.filter_eq_self.mpr fun a ha => by simp [hall a ha]
    have hpos : 0 < results.length := Nat.pos_of_ne_zero hne
    simp only [generate_summary, hfull, if_pos hpos]
    exact pctString_self results.length hne
  · intro h name
    simpa [generate_summary] using sum_count_eq_filter_length name results h

/-- Witness for c7_summary_correct on a concrete one-pair error-free batch. -/
theorem c7_summary_correct_witness :
    (generate_summary [c7Res]).success_rate = "100.0%" ∧
    (generate_summary [c7Res]).steps_completed "front_graded" = 1 := by
  refine ⟨(c7_summary_correct [c7Res]).2.2.2.2.2.2.1 ⟨by decide, by decide⟩, ?_⟩
  have h := (c7_summary_correct [c7Res]).2.2.2.2.2.2.2 (by decide) "front_graded"
  rw [h]
  decide

/-- C2: with grade records on both sides, every numeric sub-score (corners,
edges, surface, centering, final) of the combined grade averages the two
sides when both carry it, keeps the single present value, and is omitted
when absent on both; with a grade on exactly one side the pair's grade is
that side's grade unmodified. -/
theorem c2_grade_combination (fg bg : GradeResult) (fr br : GradeRecord)
    (frs brs : List GradeRecord)
    (hf : fg.records = fr :: frs) (hb : bg.records = br :: brs) :
    (∃ cr, (combine_grades fg bg).records = [cr] ∧
      cr.grades.corners = avgField fr.grades.corners br.grades.corners ∧
      cr.grades.edges = avgField fr.grades.edges br.grades.edges ∧
      cr.grades.surface = avgField fr.grades.surface br.grades.surface ∧
      cr.grades.centering = avgField fr.grades.centering br.grades.centering ∧
      cr.grades.final = avgField fr.grades.final br.grades.final) ∧
    (∀ a b : Rat, avgField (some a) (some b) = some ((a + b) / 2)) ∧
    (∀ a : Rat, avgField (some a) none = some a ∧ avgField none (some a) = some a) ∧
    avgField none none = none ∧
    (∀ g : GradeResult, selectPairGrade (some g) none = some g ∧
      selectPairGrade none (some g) = some g) := by
  refine ⟨?_, fun a b => rfl, fun a => ⟨rfl, rfl⟩, rfl, fun g => ⟨rfl, rfl⟩⟩
  unfold combine_grades
  rw [hf, hb]
  dsimp only
  split
  · split
    · exact ⟨_, rfl, rfl, rfl, rfl, rfl, rfl⟩
    · exact ⟨_, rfl, rfl, rfl, rfl, rfl, rfl⟩
  · split
    · exact ⟨_, rfl, rfl, rfl, rfl, rfl, rfl⟩
    · exact ⟨_, rfl, rfl, rfl, rfl, rfl, rfl⟩

/-- Witness for c2_grade_combination on the spec's own example: front
corners 8 / edges 9 and back corners 6 / edges 7 combine to 7 and 8. -/
theorem c2_grade_combination_witness :
    ∃ cr, (combine_grades fgW bgW).records = [cr] ∧
      cr.grades.corners = some 7 ∧ cr.grades.edges = some 8 := by
  obtain ⟨⟨cr, hrec, hc, he, -, -, -⟩, -, -, -, -⟩ :=
    c2_grade_combination fgW bgW _ _ [] [] rfl rfl
  refine ⟨cr, hrec, ?_, ?_⟩
  · rw [hc]; norm_num [avgField, fgW, bgW]
  · rw [he]; norm_num [avgField, fgW, bgW]

/-- C3: a pair missing either image yields a result with no completed steps
and exactly one error, and no tool call is recorded for that pair. -/
theorem c3_missing_image (oracle : Oracle) (pair : CardPair) (plan : Plan)
    (pairIdx : Nat) (log : RunLog)
    (h : imgMissing pair.front = true ∨ imgMissing pair.back = true) :
    (process_single_pair oracle pair plan pairIdx log).1.steps_completed = [] ∧
    (process_single_pair oracle pair plan pairIdx log).1.errors.length = 1 ∧
    (process_single_pair oracle pair plan pairIdx log).2.trace = log.trace := by
  obtain h | h := h
  · simp [process_single_pair, h, emitL]
  · by_cases hf : imgMissing pair.front
    · simp [process_single_pair, hf, emitL]
    · simp [process_single_pair, h, hf, emitL]

/-- Witness for c3_missing_image: a pair with no front image. -/
theorem c3_missing_image_witness :
    (process_single_pair (fun _ => CallEnv.waitTimeout)
        { front := none, back := some [1] } c1Plan 0 {}).1.steps_completed = [] ∧
    (process_single_pair (fun _ => CallEnv.waitTimeout)
        { front := none, back := some [1] } c1Plan 0 {}).1.errors.length = 1 ∧
    (process_single_pair (fun _ => CallEnv.waitTimeout)
        { front := none, back := some [1] } c1Plan 0 {}).2.trace = ({} : RunLog).trace :=
  c3_missing_image (fun _ => CallEnv.waitTimeout)
    { front := none, back := some [1] } c1Plan 0 {} (Or.inl rfl)

/-- C4 counterexample: a remote-reported error makes `call_mcp_tool` raise
(`Except.error`, re-raised by its handler) rather than return a result
carrying an error field, and a transport timeout of the HTTP client likewise
propagates as a raised exception rather than a TimedOut result. -/
theorem c4_counterexample :
    call_mcp_tool (.responded (some "boom") (some { success := false })) =
      .error "MCP Error: boom" ∧
    call_mcp_tool (.raisedTransport "httpx.ReadTimeout") = .error "httpx.ReadTimeout" :=
  ⟨rfl, rfl⟩

/-- C4 amended: `call_mcp_tool` propagates transport exceptions and truthy
remote-reported envelope errors as raised exceptions (after logging), and
only a non-truthy envelope error yields a returned payload, whose `success`
field callers check explicitly. -/
theorem c4_amended (x : McpExchange) :
    (∀ m, x = .raisedTransport m → call_mcp_tool x = .error m) ∧
    (∀ e res, x = .responded (some e) res → e.isEmpty = false →
      call_mcp_tool x = .error ("MCP Error: " ++ e)) ∧
    (∀ res, x = .responded none res → call_mcp_tool x = .ok (res.getD {})) ∧
    (∀ res, x = .responded (some "") res → call_mcp_tool x = .ok (res.getD {})) := by
  refine ⟨?_, ?_, ?_, ?_⟩
  · rintro m rfl; rfl
  · rintro e res rfl he
    simp [call_mcp_tool, truthyStr, pyStrOfOpt, he]
  · rintro res rfl; rfl
  · rintro res rfl; rfl

/-- Witness for c4_amended on a concrete error envelope. -/
theorem c4_amended_witness :
    call_mcp_tool (.responded (some "remote failure") none) =
      .error "MCP Error: remote failure" :=
  (c4_amended (.responded (some "remote failure") none)).2.1 "remote failure" none rfl rfl

/-- C6 counterexample: when the external planner's reply parses, the plan
builder returns it unvalidated, so a parseable reply with no steps yields a
Step Plan containing no orientation-check step at all (the planning prompt
even instructs the model not to include orientation steps). -/
theorem c6_counterexample :
    stepEnabled (create_processing_plan (.parsed { steps := [] }) {}) "check_orientation" =
      none :=
  rfl

/-- C6 amended: the deterministic default plan — used whenever the planning
call raises or its reply is unparseable — always contains an enabled
orientation-check step, and every other step's enabled flag is the caller's
corresponding capability flag (with the code's defaults when the key is
absent); a parseable planner reply is returned as-is and need not contain
the orientation step. -/
theorem c6_amended (u : UserOptions) (msg txt : String) :
    create_processing_plan (.raisedPlanning msg) u = default_processing_plan u ∧
    create_processing_plan (.unparseable txt) u = default_processing_plan u ∧
    stepEnabled (default_processing_plan u) "check_orientation" = some true ∧
    stepEnabled (default_processing_plan u) "remove_background" =
      some (u.remove_background.getD true) ∧
    stepEnabled (default_processing_plan u) "identify_card" = some (u.identify.getD true) ∧
    stepEnabled (default_processing_plan u) "grade_card" = some (u.grade.getD true) ∧
    stepEnabled (default_processing_plan u) "enhance_image" = some (u.enhance.getD false) ∧
    stepEnabled (default_processing_plan u) "generate_description" =
      some (u.generate_description.getD true) :=
  ⟨rfl, rfl, rfl, rfl, rfl, rfl, rfl, rfl⟩

/-- C9 counterexample: narrating while the agent carries a session id that is
unknown to the store (the session was already cleared) is not a no-op — the
call re-creates the session's entry and appends the event. -/
theorem c9_counterexample :
    log_thought_store (some "s1") entry0 [] = [("s1", [entry0])] ∧
    log_thought_store (some "s1") entry0 [] ≠ [] := by
  exact ⟨rfl, by decide⟩

theorem storeAppend_of_lookup_none (sid : String) (e : ThoughtEntry) :
    ∀ st : ThoughtStore, storeLookup sid st = none →
      storeAppend sid e st = st ++ [(sid, [e])] := by
  intro st
  induction st with
  | nil => intro _; rfl
  | cons p rest ih =>
    intro h
    simp only [storeLookup, List.find?_cons] at h
    by_cases hp : p.fst == sid
    · simp [hp] at h
    · simp only [storeAppend, hp, if_neg]
      rw [ih (by simpa [storeLookup, hp] using h)]
      simp

/-- C9 amended: narration never fails and leaves the store untouched exactly
when the agent has no session identifier (or an empty one); when a non-empty
session id is set but absent from the store — e.g. the session was already
torn down — the call re-creates that session's entry and appends the event
instead of being a no-op. -/
theorem c9_amended (sid : String) (st : ThoughtStore) (e : ThoughtEntry) :
    log_thought_store none e st = st ∧
    log_thought_store (some "") e st = st ∧
    (sid.isEmpty = false → storeLookup sid st = none →
      log_thought_store (some sid) e st = st ++ [(sid, [e])]) := by
  refine ⟨rfl, rfl, fun hne hl => ?_⟩
  simp only [log_thought_store, hne, if_neg Bool.false_ne_true]
  exact storeAppend_of_lookup_none sid e st hl

/-- Witness for c9_amended on a store holding one other session. -/
theorem c9_amended_witness :
    log_thought_store (some "s2") entry0 [("s1", [])] = [("s1", []), ("s2", [entry0])] :=
  (c9_amended "s2" [("s1", [])] entry0).2.2 rfl rfl

/-- C10: an `image_update` entry in the metadata is carried on the event and
suppresses the structured identification fields even when those keys are
present, and conversely an event carrying the identification hint can only
arise from metadata without an `image_update` entry. -/
theorem c10_image_update_excludes_hint (thought step : String) (m : ThoughtMeta) :
    (∀ u, m.image_update = some u →
      (mkThoughtEntry thought step (some m)).image_update = some u ∧
      (mkThoughtEntry thought step (some m)).pair_index = none ∧
      (mkThoughtEntry thought step (some m)).card_name = none) ∧
    (((mkThoughtEntry thought step (some m)).pair_index.isSome ∨
        (mkThoughtEntry thought step (some m)).card_name.isSome) →
      m.image_update = none) := by
  constructor
  · intro u hu
    simp [mkThoughtEntry, hu]
  · intro h
    cases hu : m.image_update with
    | none => rfl
    | some u =>
      rw [show mkThoughtEntry thought step (some m) =
            { step := step, thought := thought, image_update := some u } by
          simp [mkThoughtEntry, hu]] at h
      simp at h

theorem procImageStep_attempted (oracle : Oracle) (pairIdx : Nat) (cardType : String)
    (shouldIdentify : Bool) (original : Img) (st : PState) (step : Step) :
    (procImageStep oracle pairIdx cardType shouldIdentify original st step).attempted =
      st.attempted ++ (if step.enabled then [step.name] else []) := by
  by_cases h : step.enabled
  · simp [procImageStep, h]
  · simp [procImageStep, h]

theorem foldl_attempted (oracle : Oracle) (pairIdx : Nat) (cardType : String)
    (shouldIdentify : Bool) (original : Img) :
    ∀ (steps : List Step) (st : PState),
      (steps.foldl (procImageStep oracle pairIdx cardType shouldIdentify original) st).attempted =
        st.attempted ++ (steps.filter (fun s => s.enabled)).map (fun s => s.name) := by
  intro steps
  induction steps with
  | nil => intro st; simp
  | cons s rest ih =>
    intro st
    rw [List.foldl_cons, ih, procImageStep_attempted]
    by_cases h : s.enabled
    · simp [List.filter_cons, h]
    · simp [List.filter_cons, h]

/-- C1: every enabled plan step's dispatch is reached no matter what the
environment does to earlier steps (the attempted-step list always equals the
plan's enabled steps), and in the concrete grading-timeout scenario the side
result records a grading error mentioning the timeout while the subsequent
generate-description step still runs and stores its output. -/
theorem c1_errors_do_not_abort (oracle : Oracle) (img : Img) (plan : Plan)
    (pairIdx : Nat) (cardType : String) (shouldIdentify : Bool) (log : RunLog) :
    (process_single_card_image oracle img plan pairIdx cardType shouldIdentify log).attempted =
      (plan.steps.filter (fun s => s.enabled)).map (fun s => s.name) ∧
    "Grading failed: Grading timed out after 3 minutes" ∈ c1Run.result.errors ∧
    c1Run.result.results.listing_description = some "a fine card" ∧
    "description_generated" ∈ c1Run.result.steps_completed := by
  refine ⟨?_, by decide, by decide, by decide⟩
  unfold process_single_card_image
  rw [foldl_attempted]
  rfl

theorem stepCheckOrientation_gradeOriginal (oracle : Oracle) (pairIdx : Nat)
    (original : Img) (st : PState)
    (h : st.log.trace.all (gradeUsesOriginal original) = true) :
    ((stepCheckOrientation oracle pairIdx st).log.trace.all (gradeUsesOriginal original)) = true := by
  unfold stepCheckOrientation doCall
  dsimp only
  repeat' split
  all_goals
    simp_all [PState.emit, PState.err, PState.done, PState.setOut, PState.spawnTask,
      emitL, spawnL, gradeUsesOriginal, List.all_append]

theorem stepRemoveBackground_gradeOriginal (oracle : Oracle) (pairIdx : Nat)
    (original : Img) (st : PState)
    (h : st.log.trace.all (gradeUsesOriginal original) = true) :
    ((stepRemoveBackground oracle pairIdx st).log.trace.all (gradeUsesOriginal original)) = true := by
  unfold stepRemoveBackground doCall
  dsimp only
  repeat' split
  all_goals
    simp_all [PState.emit, PState.err, PState.done, PState.setOut, PState.spawnTask,
      emitL, spawnL, gradeUsesOriginal, List.all_append]

theorem stepIdentifyCard_gradeOriginal (oracle : Oracle) (pairIdx : Nat)
    (original : Img) (st : PState)
    (h : st.log.trace.all (gradeUsesOriginal original) = true) :
    ((stepIdentifyCard oracle pairIdx st).log.trace.all (gradeUsesOriginal original)) = true := by
  unfold stepIdentifyCard doCall
  dsimp only
  repeat' split
  all_goals
    simp_all [PState.emit, PState.err, PState.done, PState.setOut, PState.spawnTask,
      emitL, spawnL, gradeUsesOriginal, List.all_append]

theorem stepGradeCard_gradeOriginal (oracle : Oracle) (pairIdx : Nat) (cardType : String)
    (original : Img) (st : PState)
    (h : st.log.trace.all (gradeUsesOriginal original) = true) :
    ((stepGradeCard oracle pairIdx cardType original st).log.trace.all
      (gradeUsesOriginal original)) = true := by
  unfold stepGradeCard doCall
  dsimp only
  repeat' split
  all_goals
    simp_all [PState.emit, PState.err, PState.done, PState.setOut, PState.spawnTask,
      emitL, spawnL, gradeUsesOriginal, List.all_append]

theorem stepEnhanceImage_gradeOriginal (oracle : Oracle) (pairIdx : Nat) (cardType : String)
    (original : Img) (st : PState)
    (h : st.log.trace.all (gradeUsesOriginal original) = true) :
    ((stepEnhanceImage oracle pairIdx cardType st).log.trace.all
      (gradeUsesOriginal original)) = true := by
  unfold stepEnhanceImage doCall
  dsimp only
  repeat' split
  all_goals
    simp_all [PState.emit, PState.err, PState.done, PState.setOut, PState.spawnTask,
      emitL, spawnL, gradeUsesOriginal, List.all_append]

theorem stepGenerateDescription_gradeOriginal (oracle : Oracle) (pairIdx : Nat)
    (cardType : String) (original : Img) (st : PState)
    (h : st.log.trace.all (gradeUsesOriginal original) = true) :
    ((stepGenerateDescription oracle pairIdx cardType st).log.trace.all
      (gradeUsesOriginal original)) = true := by
  unfold stepGenerateDescription doCall
  dsimp only
  repeat' split
  all_goals
    simp_all [PState.emit, PState.err, PState.done, PState.setOut, PState.spawnTask,
      emitL, spawnL, gradeUsesOriginal, List.all_append]

theorem procImageStep_gradeOriginal (oracle : Oracle) (pairIdx : Nat) (cardType : String)
    (shouldIdentify : Bool) (original : Img) (st : PState) (step : Step)
    (h : st.log.trace.all (gradeUsesOriginal original) = true) :
    ((procImageStep oracle pairIdx cardType shouldIdentify original st step).log.trace.all
      (gradeUsesOriginal original)) = true := by
  by_cases he : step.enabled
  case neg => simpa [procImageStep, he] using h
  case pos =>
    simp only [procImageStep, he, if_true]
    unfold procImageStepBody
    dsimp only
    repeat' split
    all_goals
      first
      | simpa [PState.emit, emitL] using h
      | exact stepCheckOrientation_gradeOriginal oracle pairIdx original _
          (by simpa [PState.emit, emitL] using h)
      | exact stepRemoveBackground_gradeOriginal oracle pairIdx original _
          (by simpa [PState.emit, emitL] using h)
      | exact stepIdentifyCard_gradeOriginal oracle pairIdx original _
          (by simpa [PState.emit, emitL] using h)
      | exact stepGradeCard_gradeOriginal oracle pairIdx cardType original _
          (by simpa [PState.emit, emitL] using h)
      | exact stepEnhanceImage_gradeOriginal oracle pairIdx cardType original _
          (by simpa [PState.emit, emitL] using h)
      | exact stepGenerateDescription_gradeOriginal oracle pairIdx cardType original _
          (by simpa [PState.emit, emitL] using h)

theorem foldl_gradeOriginal (oracle : Oracle) (pairIdx : Nat) (cardType : String)
    (shouldIdentify : Bool) (original : Img) :
    ∀ (steps : List Step) (st : PState),
      st.log.trace.all (gradeUsesOriginal original) = true →
      ((steps.foldl (procImageStep oracle pairIdx cardType shouldIdentify original) st).log.trace.all
        (gradeUsesOriginal original)) = true := by
  intro steps
  induction steps with
  | nil => intro st h; simpa using h
  | cons s rest ih =>
    intro st h
    rw [List.foldl_cons]
    exact ih _ (procImageStep_gradeOriginal oracle pairIdx cardType shouldIdentify original st s h)

/-- C5 amended: on the pair-side processor (`_process_single_card_image`)
every grading tool call carries the side's original input image, whatever
the plan and the environment, provided incoming trace entries already obey
the discipline; the legacy `_process_single_card` path cited alongside it
grades the working buffer instead. -/
theorem c5_amended_grading_uses_original (oracle : Oracle) (img : Img) (plan : Plan)
    (pairIdx : Nat) (cardType : String) (shouldIdentify : Bool) (log : RunLog)
    (h : log.trace.all (gradeUsesOriginal img) = true) :
    ((process_single_card_image oracle img plan pairIdx cardType shouldIdentify log).log.trace.all
      (gradeUsesOriginal img)) = true := by
  unfold process_single_card_image
  exact foldl_gradeOriginal oracle pairIdx cardType shouldIdentify img plan.steps _ h

/-- Witness for c5_amended_grading_uses_original on the concrete
grading-timeout run. -/
theorem c5_amended_grading_uses_original_witness :
    ((process_single_card_image c1Oracle [1, 2, 3] c1Plan 0 "front" true {}).log.trace.all
      (gradeUsesOriginal [1, 2, 3])) = true :=
  c5_amended_grading_uses_original c1Oracle [1, 2, 3] c1Plan 0 "front" true {} (by decide)

/-- C5 counterexample: on the legacy `_process_single_card` path (cited by
the claim), after a successful background removal the grading tool receives
the background-removed working buffer `[9, 9]`, not the original image
`[1, 2, 3]`. -/
theorem c5_counterexample :
    (process_single_card c5Oracle (some [1, 2, 3]) c5Plan).trace =
      [{ method := "remove_background", image := some [1, 2, 3] },
       { method := "grade_card", image := some [9, 9] }] ∧
    ((process_single_card c5Oracle (some [1, 2, 3]) c5Plan).trace.all
      (gradeUsesOriginal [1, 2, 3])) = false :=
  ⟨by decide, by decide⟩

theorem ActsExt.refl (P : Act → Bool) (A : List Act) : ActsExt P A A :=
  ⟨List.prefix_rfl, by simp [List.drop_length]⟩

theorem ActsExt.append (P : Act → Bool) (A l : List Act) (h : l.all P = true) :
    ActsExt P A (A ++ l) :=
  ⟨List.prefix_append A l, by simpa [List.drop_left] using h⟩

theorem ActsExt.trans {P : Act → Bool} {A B C : List Act}
    (h1 : ActsExt P A B) (h2 : ActsExt P B C) : ActsExt P A C := by
  obtain ⟨⟨u, hu⟩, hau⟩ := h1
  obtain ⟨⟨v, hv⟩, hav⟩ := h2
  subst hu
  subst hv
  rw [List.drop_left] at hau
  rw [List.drop_left] at hav
  refine ⟨⟨u ++ v, by rw [List.append_assoc]⟩, ?_⟩
  rw [List.append_assoc, List.drop_left, List.all_append, Bool.and_eq_true]
  exact ⟨hau, hav⟩

theorem ActsExt.emit_one (P : Act → Bool) (L : RunLog) (e : Ev)
    (h : P (Act.emit e) = true) : ActsExt P L.acts (emitL L e).acts :=
  ActsExt.append P L.acts [Act.emit e] (by simp [h])

theorem ActsExt.ite_emit (P : Act → Bool) (c : Prop) [Decidable c] (L : RunLog) (e : Ev)
    (h : P (Act.emit e) = true) :
    ActsExt P L.acts (if c then emitL L e else L).acts := by
  by_cases hc : c
  · simpa [hc] using ActsExt.emit_one P L e h
  · simpa [hc] using ActsExt.refl P L.acts

theorem stepCheckOrientation_actsExt (oracle : Oracle) (pairIdx : Nat) (st : PState) :
    ActsExt (actOkAt pairIdx) st.log.acts
      (stepCheckOrientation oracle pairIdx st).log.acts := by
  unfold stepCheckOrientation doCall
  dsimp only
  repeat' split
  all_goals
    constructor
  all_goals
    first
    | (simp only [PState.emit, PState.err, PState.done, PState.setOut, PState.spawnTask,
        emitL, spawnL, List.append_assoc]
       first
        | exact List.prefix_rfl
        | exact List.prefix_append _ _)
    | simp_all [PState.emit, PState.err, PState.done, PState.setOut, PState.spawnTask,
        emitL, spawnL, List.append_assoc, List.drop_left, List.drop_length,
        actOkAt, actAll, actOkSupp, evTagOk, evTagged, callActs, longRunning,
        progressTaskEvents, gradingProgressEvents, List.all_append]

theorem stepRemoveBackground_actsExt (oracle : Oracle) (pairIdx : Nat) (st : PState) :
    ActsExt (actOkAt pairIdx) st.log.acts
      (stepRemoveBackground oracle pairIdx st).log.acts := by
  unfold stepRemoveBackground doCall
  dsimp only
  repeat' split
  all_goals
    constructor
  all_goals
    first
    | (simp only [PState.emit, PState.err, PState.done, PState.setOut, PState.spawnTask,
        emitL, spawnL, List.append_assoc]
       first
        | exact List.prefix_rfl
        | exact List.prefix_append _ _)
    | simp_all [PState.emit, PState.err, PState.done, PState.setOut, PState.spawnTask,
        emitL, spawnL, List.append_assoc, List.drop_left, List.drop_length,
        actOkAt, actAll, actOkSupp, evTagOk, evTagged, callActs, longRunning,
        progressTaskEvents, gradingProgressEvents, List.all_append]

theorem stepIdentifyCard_actsExt (oracle : Oracle) (pairIdx : Nat) (st : PState) :
    ActsExt (actOkAt pairIdx) st.log.acts
      (stepIdentifyCard oracle pairIdx st).log.acts := by
  unfold stepIdentifyCard doCall
  dsimp only
  repeat' split
  all_goals
    constructor
  all_goals
    first
    | (simp only [PState.emit, PState.err, PState.done, PState.setOut, PState.spawnTask,
        emitL, spawnL, List.append_assoc]
       first
        | exact List.prefix_rfl
        | exact List.prefix_append _ _)
    | simp_all [PState.emit, PState.err, PState.done, PState.setOut, PState.spawnTask,
        emitL, spawnL, List.append_assoc, List.drop_left, List.drop_length,
        actOkAt, actAll, actOkSupp, evTagOk, evTagged, callActs, longRunning,
        progressTaskEvents, gradingProgressEvents, List.all_append]

theorem stepGradeCard_actsExt (oracle : Oracle) (pairIdx : Nat) (cardType : String)
    (original : Img) (st : PState) :
    ActsExt (actOkAt pairIdx) st.log.acts
      (stepGradeCard oracle pairIdx cardType original st).log.acts := by
  unfold stepGradeCard doCall
  dsimp only
  repeat' split
  all_goals
    constructor
  all_goals
    first
    | (simp only [PState.emit, PState.err, PState.done, PState.setOut, PState.spawnTask,
        emitL, spawnL, List.append_assoc]
       first
        | exact List.prefix_rfl
        | exact List.prefix_append _ _)
    | simp_all [PState.emit, PState.err, PState.done, PState.setOut, PState.spawnTask,
        emitL, spawnL, List.append_assoc, List.drop_left, List.drop_length,
        actOkAt, actAll, actOkSupp, evTagOk, evTagged, callActs, longRunning,
        progressTaskEvents, gradingProgressEvents, List.all_append]

theorem stepEnhanceImage_actsExt (oracle : Oracle) (pairIdx : Nat) (cardType : String)
    (st : PState) :
    ActsExt (actOkAt pairIdx) st.log.acts
      (stepEnhanceImage oracle pairIdx cardType st).log.acts := by
  unfold stepEnhanceImage doCall
  dsimp only
  repeat' split
  all_goals
    constructor
  all_goals
    first
    | (simp only [PState.emit, PState.err, PState.done, PState.setOut, PState.spawnTask,
        emitL, spawnL, List.append_assoc]
       first
        | exact List.prefix_rfl
        | exact List.prefix_append _ _)
    | simp_all [PState.emit, PState.err, PState.done, PState.setOut, PState.spawnTask,
        emitL, spawnL, List.append_assoc, List.drop_left, List.drop_length,
        actOkAt, actAll, actOkSupp, evTagOk, evTagged, callActs, longRunning,
        progressTaskEvents, gradingProgressEvents, List.all_append]

theorem stepGenerateDescription_actsExt (oracle : Oracle) (pairIdx : Nat)
    (cardType : String) (st : PState) :
    ActsExt (actOkAt pairIdx) st.log.acts
      (stepGenerateDescription oracle pairIdx cardType st).log.acts := by
  unfold stepGenerateDescription doCall
  dsimp only
  repeat' split
  all_goals
    constructor
  all_goals
    first
    | (simp only [PState.emit, PState.err, PState.done, PState.setOut, PState.spawnTask,
        emitL, spawnL, List.append_assoc]
       first
        | exact List.prefix_rfl
        | exact List.prefix_append _ _)
    | simp_all [PState.emit, PState.err, PState.done, PState.setOut, PState.spawnTask,
        emitL, spawnL, List.append_assoc, List.drop_left, List.drop_length,
        actOkAt, actAll, actOkSupp, evTagOk, evTagged, callActs, longRunning,
        progressTaskEvents, gradingProgressEvents, List.all_append]

theorem procImageStepBody_actsExt (oracle : Oracle) (pairIdx : Nat) (cardType : String)
    (shouldIdentify : Bool) (original : Img) (st : PState) (step : Step) :
    ActsExt (actOkAt pairIdx) st.log.acts
      (procImageStepBody oracle pairIdx cardType shouldIdentify original st step).log.acts := by
  have hstep : actOkAt pairIdx (Act.emit (evTagged "step" pairIdx)) = true := by
    simp [actOkAt, actAll, actOkSupp, evTagOk, evTagged]
  have h0 : ActsExt (actOkAt pairIdx) st.log.acts
      (st.emit (evTagged "step" pairIdx)).log.acts :=
    ActsExt.emit_one _ st.log _ hstep
  unfold procImageStepBody
  dsimp only
  repeat' split
  all_goals
    first
    | exact ActsExt.emit_one _ st.log _ hstep
    | exact h0.trans (stepCheckOrientation_actsExt oracle pairIdx _)
    | exact h0.trans (stepRemoveBackground_actsExt oracle pairIdx _)
    | exact h0.trans (stepIdentifyCard_actsExt oracle pairIdx _)
    | exact h0.trans (stepGradeCard_actsExt oracle pairIdx cardType original _)
    | exact h0.trans (stepEnhanceImage_actsExt oracle pairIdx cardType _)
    | exact h0.trans (stepGenerateDescription_actsExt oracle pairIdx cardType _)

theorem procImageStep_actsExt (oracle : Oracle) (pairIdx : Nat) (cardType : String)
    (shouldIdentify : Bool) (original : Img) (st : PState) (step : Step) :
    ActsExt (actOkAt pairIdx) st.log.acts
      (procImageStep oracle pairIdx cardType shouldIdentify original st step).log.acts := by
  by_cases he : step.enabled
  · simpa [procImageStep, he] using
      procImageStepBody_actsExt oracle pairIdx cardType shouldIdentify original st step
  · simpa [procImageStep, he] using ActsExt.refl (actOkAt pairIdx) st.log.acts

theorem foldl_actsExt (oracle : Oracle) (pairIdx : Nat) (cardType : String)
    (shouldIdentify : Bool) (original : Img) :
    ∀ (steps : List Step) (st : PState),
      ActsExt (actOkAt pairIdx) st.log.acts
        ((steps.foldl (procImageStep oracle pairIdx cardType shouldIdentify original) st).log.acts) := by
  intro steps
  induction steps with
  | nil => intro st; exact ActsExt.refl _ _
  | cons s rest ih =>
    intro st
    rw [List.foldl_cons]
    exact (procImageStep_actsExt oracle pairIdx cardType shouldIdentify original st s).trans
      (ih _)

theorem process_single_card_image_actsExt (oracle : Oracle) (img : Img) (plan : Plan)
    (pairIdx : Nat) (cardType : String) (shouldIdentify : Bool) (log : RunLog) :
    ActsExt (actOkAt pairIdx) log.acts
      (process_single_card_image oracle img plan pairIdx cardType shouldIdentify log).log.acts := by
  unfold process_single_card_image
  exact foldl_actsExt oracle pairIdx cardType shouldIdentify img plan.steps
    { result := {}, current := img, log := log, attempted := [] }

theorem process_single_pair_actsExt (oracle : Oracle) (pair : CardPair) (plan : Plan)
    (pairIdx : Nat) (log : RunLog) :
    ActsExt (actOkAt pairIdx) log.acts
      (process_single_pair oracle pair plan pairIdx log).2.acts := by
  have hstep : actOkAt pairIdx (Act.emit (evTagged "step" pairIdx)) = true := by
    simp [actOkAt, actAll, actOkSupp, evTagOk, evTagged]
  have herr : actOkAt pairIdx (Act.emit (evTagged "error" pairIdx)) = true := by
    simp [actOkAt, actAll, actOkSupp, evTagOk, evTagged]
  have hsucc : actOkAt pairIdx (Act.emit (evTagged "success" pairIdx)) = true := by
    simp [actOkAt, actAll, actOkSupp, evTagOk, evTagged]
  unfold process_single_pair
  dsimp only
  by_cases h1 : imgMissing pair.front = true
  · simp only [h1, if_true]
    exact ActsExt.emit_one _ log _ herr
  · rw [Bool.not_eq_true] at h1
    simp only [h1, Bool.false_eq_true, if_false]
    by_cases h2 : imgMissing pair.back = true
    · simp only [h2, if_true]
      exact ActsExt.emit_one _ log _ herr
    · rw [Bool.not_eq_true] at h2
      simp only [h2, Bool.false_eq_true, if_false]
      set L1 := emitL (emitL log (evTagged "step" pairIdx)) (evTagged "step" pairIdx) with hL1
      set F := process_single_card_image oracle (pair.front.getD []) plan pairIdx "front" true L1
        with hF
      set L2 := emitL (emitL F.log (evTagged "step" pairIdx)) (evTagged "step" pairIdx) with hL2
      set B := process_single_card_image oracle (pair.back.getD []) plan pairIdx "back" false L2
        with hB
      have hmain : ActsExt (actOkAt pairIdx) log.acts B.log.acts :=
        ((((ActsExt.emit_one _ log _ hstep).trans
          (ActsExt.emit_one _ _ _ hstep)).trans
          (process_single_card_image_actsExt oracle (pair.front.getD []) plan pairIdx "front" true L1)).trans
          ((ActsExt.emit_one _ F.log _ hstep).trans (ActsExt.emit_one _ _ _ hstep))).trans
          (process_single_card_image_actsExt oracle (pair.back.getD []) plan pairIdx "back" false L2)
      split
      · exact hmain.trans (ActsExt.emit_one _ B.log _ hsucc)
      · exact hmain.trans (ActsExt.emit_one _ B.log _ hstep)
      · exact hmain.trans (ActsExt.emit_one _ B.log _ hstep)
      · exact hmain

theorem crossPairOk_append (l t : List Ev) (h : crossPairOk (l ++ t) = true) :
    crossPairOk l = true := by
  induction l with
  | nil => rfl
  | cons e rest ih =>
    simp only [List.cons_append, crossPairOk, Bool.and_eq_true] at h ⊢
    obtain ⟨h1, h2⟩ := h
    refine ⟨?_, ih h2⟩
    by_cases hp : proc1 e = true
    · simp only [hp, if_true] at h1 ⊢
      simp [List.all_append] at h1 ⊢
      exact h1.1
    · simp [hp]

theorem schedRun_filter_prefix :
    ∀ (cs : List Nat) (acts : List Act) (tasks : List (List Ev)),
      acts.all actOkSupp = true →
      tasks.all (fun t => t.all (fun e => e.supp)) = true →
      ((schedRun cs acts tasks).filter (fun e => !e.supp)) <+: nsEmits acts := by
  intro cs
  induction cs with
  | nil => intro acts tasks _ _; simp [schedRun]
  | cons c cs ih =>
    intro acts tasks ha ht
    match c with
    | 0 =>
      match acts with
      | [] =>
        simpa [schedRun, nsEmits] using ih [] tasks (by simp) ht
      | Act.emit e :: rest =>
        have ha' : rest.all actOkSupp = true := by
          rw [List.all_cons, Bool.and_eq_true] at ha; exact ha.2
        by_cases hs : e.supp = true
        · simpa [schedRun, List.filter_cons, hs, nsEmits] using ih rest tasks ha' ht
        · simp only [Bool.not_eq_true] at hs
          obtain ⟨t, htl⟩ := ih rest tasks ha' ht
          refine ⟨t, ?_⟩
          simp [schedRun, List.filter_cons, hs, nsEmits, htl]
      | Act.spawn es :: rest =>
        rw [List.all_cons, Bool.and_eq_true] at ha
        obtain ⟨hes, ha'⟩ := ha
        have ht' : (tasks ++ [es]).all (fun t => t.all (fun e => e.supp)) = true := by
          rw [List.all_append, Bool.and_eq_true]
          exact ⟨ht, by simpa [actOkSupp] using hes⟩
        simpa [schedRun, nsEmits] using ih rest (tasks ++ [es]) ha' ht'
    | k + 1 =>
      cases hg : tasks[k]? with
      | none => simpa [schedRun, hg] using ih acts tasks ha ht
      | some tk =>
        cases tk with
        | nil => simpa [schedRun, hg] using ih acts tasks ha ht
        | cons e es =>
          have hmem : (e :: es) ∈ tasks := List.getElem?_mem hg
          have hees : (e :: es).all (fun e => e.supp) = true :=
            List.all_eq_true.mpr (fun x hx =>
              List.all_eq_true.mp (List.all_eq_true.mp ht _ hmem) x hx)
          rw [List.all_cons, Bool.and_eq_true] at hees
          obtain ⟨he, hes⟩ := hees
          have hset : (tasks.set k es).all (fun t => t.all (fun e => e.supp)) = true := by
            rw [List.all_eq_true]
            intro x hx
            rcases List.mem_or_eq_of_mem_set hx with hmem2 | rfl
            · exact List.all_eq_true.mp ht _ hmem2
            · exact hes
          simpa [schedRun, hg, List.filter_cons, he] using ih acts (tasks.set k es) ha hset

theorem evTagLt_mono {i : Nat} (e : Ev) (h : evTagLt i e = true) :
    evTagLt (i + 1) e = true := by
  unfold evTagLt at h ⊢
  cases hp : e.pairIdx with
  | none => rfl
  | some k =>
    rw [hp] at h
    simp at h ⊢
    omega

theorem evTagOk_lt {i : Nat} (e : Ev) (h : evTagOk i e = true) :
    evTagLt (i + 1) e = true := by
  unfold evTagOk at h
  unfold evTagLt
  cases hp : e.pairIdx with
  | none => rfl
  | some k =>
    rw [hp] at h
    simp at h
    simp [h]

theorem actAll_imp {p q : Ev → Bool} (h : ∀ e, p e = true → q e = true) :
    ∀ a, actAll p a = true → actAll q a = true := by
  intro a
  cases a with
  | emit e => simpa [actAll] using h e
  | spawn es =>
    simp only [actAll, List.all_eq_true]
    intro ha e he
    exact h e (ha e he)

theorem emitsOf_append (A B : List Act) :
    emitsOf (A ++ B) = emitsOf A ++ emitsOf B := by
  induction A with
  | nil => rfl
  | cons a rest ih => cases a <;> simp [emitsOf, ih]

theorem emitsOf_all {p : Ev → Bool} :
    ∀ {A : List Act}, A.all (actAll p) = true → ∀ e ∈ emitsOf A, p e = true := by
  intro A
  induction A with
  | nil => intro _ e he; simp [emitsOf] at he
  | cons a rest ih =>
    intro h e he
    rw [List.all_cons, Bool.and_eq_true] at h
    cases a with
    | emit ev =>
      rw [emitsOf] at he
      rcases List.mem_cons.mp he with rfl | hmem
      · simpa [actAll] using h.1
      · exact ih h.2 e hmem
    | spawn es =>
      rw [emitsOf] at he
      exact ih h.2 e he

theorem pairwise_tagLe_of_tagOk {i : Nat} {l : List Ev}
    (h : ∀ e ∈ l, evTagOk i e = true) : List.Pairwise tagLe l := by
  induction l with
  | nil => exact List.Pairwise.nil
  | cons e rest ih =>
    refine List.Pairwise.cons ?_ (ih fun x hx => h x (List.mem_cons_of_mem _ hx))
    intro x hx a b ha hb
    have he := h e (List.mem_cons_self _ _)
    have hx2 := h x (List.mem_cons_of_mem _ hx)
    simp [evTagOk, ha] at he
    simp [evTagOk, hb] at hx2
    omega

theorem logTagInv_step {i : Nat} {A B : List Act}
    (hinv : logTagInv i A) (hext : ActsExt (actOkAt i) A B) : logTagInv (i + 1) B := by
  obtain ⟨hlt, hsupp, hpw⟩ := hinv
  obtain ⟨⟨u, hu⟩, hall⟩ := hext
  subst hu
  rw [List.drop_left] at hall
  have hu_tag : u.all (actAll (evTagOk i)) = true := by
    rw [List.all_eq_true] at hall ⊢
    intro a ha
    have h := hall a ha
    rw [actOkAt, Bool.and_eq_true] at h
    exact h.1
  have hu_supp : u.all actOkSupp = true := by
    rw [List.all_eq_true] at hall ⊢
    intro a ha
    have h := hall a ha
    rw [actOkAt, Bool.and_eq_true] at h
    exact h.2
  refine ⟨?_, ?_, ?_⟩
  · rw [List.all_append, Bool.and_eq_true]
    constructor
    · rw [List.all_eq_true] at hlt ⊢
      intro a ha
      exact actAll_imp (fun e => evTagLt_mono e) a (hlt a ha)
    · rw [List.all_eq_true] at hu_tag ⊢
      intro a ha
      exact actAll_imp (fun e => evTagOk_lt e) a (hu_tag a ha)
  · rw [List.all_append, Bool.and_eq_true]
    exact ⟨hsupp, hu_supp⟩
  · rw [emitsOf_append, List.pairwise_append]
    refine ⟨hpw, pairwise_tagLe_of_tagOk (emitsOf_all hu_tag), ?_⟩
    intro x hx y hy a b ha hb
    have hxlt := emitsOf_all hlt x hx
    have hyok := emitsOf_all hu_tag y hy
    simp [evTagLt, ha] at hxlt
    simp [evTagOk, hb] at hyok
    omega

theorem execPairsAux_inv (oracle : Oracle) (plan : Plan) (n : Nat) :
    ∀ (ps : List CardPair) (i : Nat) (log : RunLog),
      logTagInv i log.acts →
      logTagInv (i + ps.length)
        (execPairsAux oracle plan n (List.enumFrom i ps) log).2.acts := by
  intro ps
  induction ps with
  | nil =>
    intro i log h
    simpa [execPairsAux, List.enumFrom] using h
  | cons p ps ih =>
    intro i log h
    have hproc : actOkAt i (Act.emit (evTagged "processing" i)) = true := by
      simp [actOkAt, actAll, actOkSupp, evTagOk, evTagged]
    have hsucc : actOkAt i (Act.emit (evTagged "success" i)) = true := by
      simp [actOkAt, actAll, actOkSupp, evTagOk, evTagged]
    show logTagInv (i + (p :: ps).length)
      (execPairsAux oracle plan n ((i, p) :: List.enumFrom (i + 1) ps) log).2.acts
    simp only [execPairsAux]
    set L1 := emitL log (evTagged "processing" i) with hL1
    set L2 := if i > 0 then emitL L1 (evTagged "processing" i) else L1 with hL2
    set PR := process_single_pair oracle p plan i L2 with hPR
    set L3 := if i < n - 1 then emitL PR.2 (evTagged "success" i) else PR.2 with hL3
    have hext : ActsExt (actOkAt i) log.acts L3.acts :=
      (((ActsExt.emit_one _ log _ hproc).trans
        (ActsExt.ite_emit _ (i > 0) L1 _ hproc)).trans
        (process_single_pair_actsExt oracle p plan i L2)).trans
        (ActsExt.ite_emit _ (i < n - 1) PR.2 _ hsucc)
    have hnext := ih (i + 1) L3 (logTagInv_step h hext)
    have harith : i + 1 + ps.length = i + (p :: ps).length := by
      simp [List.length_cons]
      omega
    rw [harith] at hnext
    exact hnext

theorem nsEmits_sublist (l : List Act) : List.Sublist (nsEmits l) (emitsOf l) := by
  induction l with
  | nil => exact List.Sublist.refl _
  | cons a rest ih =>
    cases a with
    | emit e =>
      by_cases hs : e.supp = true
      · simpa [nsEmits, emitsOf, hs] using List.Sublist.cons e ih
      · rw [Bool.not_eq_true] at hs
        simpa [nsEmits, emitsOf, hs] using List.Sublist.cons₂ e ih
    | spawn es => simpa [nsEmits, emitsOf] using ih

theorem pairwise_crossPairOkAt (n : Nat) :
    ∀ (l : List Ev), List.Pairwise tagLe l → crossPairOkAt n l = true := by
  intro l
  induction l with
  | nil => intro _; rfl
  | cons e rest ih =>
    intro h
    rw [List.pairwise_cons] at h
    obtain ⟨he, hrest⟩ := h
    rw [crossPairOkAt, Bool.and_eq_true]
    refine ⟨?_, ih hrest⟩
    by_cases hp : evProcAt (n + 1) e = true
    · simp only [hp, if_true]
      rw [List.all_eq_true]
      intro x hx
      have hte : e.pairIdx = some (n + 1) := by
        rw [evProcAt, Bool.and_eq_true] at hp
        exact eq_of_beq hp.1
      by_cases hxt : evTagIs n x = true
      · have htx : x.pairIdx = some n := by
          rw [evTagIs] at hxt
          exact eq_of_beq hxt
        have hle := he x hx (n + 1) n hte htx
        omega
      · simpa using hxt
    · simp [hp]

/-- C8 counterexample: a reachable scheduling of the two-pair batch in which
pair 0's detached grading-progress thoughts fire only after pair 1's
processing events have been narrated — an event tagged with pair 0 then
follows a processing-kind event tagged with pair 1, so cross-pair ordering
fails for supplementary events. -/
theorem c8_counterexample :
    crossPairOk (schedRun c8LateChoices c8Acts []) = false := by decide

/-- C8 amended: for every batch, plan and environment, and under every
scheduling of the detached timers, the events emitted by the sequential
pipeline itself preserve cross-pair order — for every N, no pipeline-emitted
event tagged with pair N follows a pipeline-emitted processing-kind event
tagged with pair N+1 in the observed log — while the supplementary progress
narrations carry no such guarantee. -/
theorem c8_amended_main_events_ordered (oracle : Oracle) (pairs : List CardPair)
    (plan : Plan) (cs : List Nat) (N : Nat) :
    crossPairOkAt N
      ((schedRun cs (execute_processing_plan_pairs oracle pairs plan).2.acts []).filter
        (fun e => !e.supp)) = true := by
  obtain ⟨hlt, hsupp, hpw⟩ :=
    execPairsAux_inv oracle plan pairs.length pairs 0 {} ⟨rfl, rfl, List.Pairwise.nil⟩
  have hpre :
      ((schedRun cs (execute_processing_plan_pairs oracle pairs plan).2.acts []).filter
        (fun e => !e.supp)) <+:
        nsEmits (execute_processing_plan_pairs oracle pairs plan).2.acts :=
    schedRun_filter_prefix cs _ [] hsupp rfl
  have hsub :
      List.Sublist
        ((schedRun cs (execute_processing_plan_pairs oracle pairs plan).2.acts []).filter
          (fun e => !e.supp))
        (emitsOf (execute_processing_plan_pairs oracle pairs plan).2.acts) :=
    hpre.sublist.trans (nsEmits_sublist _)
  exact pairwise_crossPairOkAt N _ (hpw.sublist hsub)

/-- Witness for c10_image_update_excludes_hint: metadata carrying both an
image update and the identification keys. -/
theorem c10_image_update_excludes_hint_witness :
    (mkThoughtEntry "t" "step"
        (some { image_update := some { pair_index := 4 }, pair_index := some 4,
                card_name := some "Pikachu" })).image_update = some { pair_index := 4 } ∧
    (mkThoughtEntry "t" "step"
        (some { image_update := some { pair_index := 4 }, pair_index := some 4,
                card_name := some "Pikachu" })).pair_index = none ∧
    (mkThoughtEntry "t" "step"
        (some { image_update := some { pair_index := 4 }, pair_index := some 4,
                card_name := some "Pikachu" })).card_name = none :=
  (c10_image_update_excludes_hint "t" "step" _).1 _ rfl

end TCG
